import Mathlib

/-!
# MemoraVerse — shallow embedding and verification

Embedding of the scene-population, animation and session-state logic of the
MemoraVerse repository (`src/src/App.jsx`, `src/unnamed/part_000`).

Conventions of the embedding:
* JavaScript numbers are modelled as `ℚ` (exact arithmetic) except where a
  claim is about real trigonometry, where `ℝ` with `Real.sin`/`Real.cos` is
  used and the definitions are `noncomputable`.
* `Math.random()` is modelled as an ambient stream `r : ℕ → ℚ` of draws, with
  the hypothesis `∀ i, 0 ≤ r i ∧ r i < 1` where a claim needs it; the index
  order of the stream follows the call order in the source.
* Euclidean `Vector3.distanceTo p q < c` (with `c ≥ 0`) is embedded as the
  squared-distance comparison `distSq p q < c ^ 2`, which is equivalent and
  keeps the development in `ℚ`.
* React `useState` setters inside a single frame callback are batched: the
  closure reads the state value from the start of the frame, and the last
  queued write wins.  The per-frame orb evaluation below models exactly that.
-/

namespace MemoraVerse

/-- A 3D point, `(x, y, z)`. -/
abbrev V3 := ℚ × ℚ × ℚ

/-- Squared Euclidean distance between two points. -/
def distSq (p q : V3) : ℚ :=
  (p.1 - q.1) ^ 2 + (p.2.1 - q.2.1) ^ 2 + (p.2.2 - q.2.2) ^ 2

/-!
## Orb activation (`MemoryOrbs`, App.jsx lines 388–401)

The source runs, every frame:
```
orbPositions.forEach((position, index) => {
  const distance = camera.position.distanceTo(new THREE.Vector3(...position));
  if (distance < 3 && activeOrb !== index) { setActiveOrb(index); }
  else if (distance >= 3 && activeOrb === index) { setActiveOrb(null); }
});
```
`activeOrb` is the render-scope value (constant during the loop); the queued
`setActiveOrb` calls are batched and the last one wins.  `orbWrites` folds the
loop, carrying the last queued write (`none` = no write queued yet);
`orbFrameEval` applies it to the old state.
-/

/-- The queued-write accumulator of the `forEach` loop over orb positions,
starting at orb index `i`.  `old` is the `activeOrb` value captured by the
frame's closure; the result is the last queued `setActiveOrb` argument, or
`acc` if the tail queues none. -/
def orbWrites (cam : V3) (old : Option ℕ) :
    List V3 → ℕ → Option (Option ℕ) → Option (Option ℕ)
  | [], _, acc => acc
  | p :: rest, i, acc =>
      orbWrites cam old rest (i + 1)
        (if distSq cam p < 3 ^ 2 then
          (if old = some i then acc else some (some i))
        else
          (if old = some i then some none else acc))

/-- One frame of the `MemoryOrbs` proximity check: the batched last write, or
the unchanged previous state when no write is queued. -/
def orbFrameEval (cam : V3) (orbs : List V3) (old : Option ℕ) : Option ℕ :=
  (orbWrites cam old orbs 0 none).getD old

/-- The amended policy, stated from the observed behaviour: the index of the
*last* (highest-indexed) candidate whose distance to the viewer is below the
activation radius 3, scanning from position index `k`; `none` if no candidate
qualifies. -/
def lastIdxWithin (cam : V3) : List V3 → ℕ → Option ℕ
  | [], _ => none
  | p :: rest, k =>
      match lastIdxWithin cam rest (k + 1) with
      | some j => some j
      | none => if distSq cam p < 3 ^ 2 then some k else none

/-!
## Orb events in non-AR/demo mode (`MemoryOrbs`, `MemoryOrb`)

Neither `MemoryOrbs` nor `MemoryOrb` attaches any click/selection handler to
an orb: the only mutation of `activeOrb` anywhere in the source is the
per-frame proximity check above, which runs identically in AR and in the
non-AR demo.  An explicit selection event therefore leaves the activation
state unchanged.
-/

/-- An event that can reach the orb collection: a rendered frame with the
current camera position, or an explicit selection (click) of orb `i`. -/
inductive OrbEvent where
  | frame (cam : V3)
  | select (i : ℕ)

/-- State transition of `activeOrb` on one event.  The `select` case is the
faithful translation of the absence of any click handler on orbs in the
source: the event is dropped and the state is unchanged. -/
def orbStep (orbs : List V3) (st : Option ℕ) : OrbEvent → Option ℕ
  | .frame cam => orbFrameEval cam orbs st
  | .select _ => st

/-!
## Procedural placement (`Vegetation`, `Birds`, `MemoryOrbs`)

Each position list is generated once inside `useMemo(..., [])`.  A placement
consumes `Math.random()` draws in source order: for trees/bushes two draws per
entity (x then z), for birds and orbs three (x, y, z).  The stream `r : ℕ → ℚ`
supplies the draws.
-/

/-- The sample YouTube video ids bound to the orbs (`SAMPLE_VIDEO_IDS`). -/
def SAMPLE_VIDEO_IDS : List String :=
  ["dQw4w9WgXcQ", "UfQHEpf7q4k", "jNQXAC9IVRw", "hwQppkBR1Zs",
   "hT_nvWreIhg", "9bZkp7q19f0", "fJ9rUzIMcZQ"]

/-- Tree placement: 20 entities, `x,z ∈ (random-0.5)*40`, `y = 0`. -/
def treePositions (r : ℕ → ℚ) : List V3 :=
  (List.range 20).map fun i =>
    ((r (2 * i) - 1/2) * 40, 0, (r (2 * i + 1) - 1/2) * 40)

/-- Bush placement: 30 entities, `x,z ∈ (random-0.5)*30`, `y = -0.5`. -/
def bushPositions (r : ℕ → ℚ) : List V3 :=
  (List.range 30).map fun i =>
    ((r (2 * i) - 1/2) * 30, -(1/2), (r (2 * i + 1) - 1/2) * 30)

/-- Bird placement: 12 entities, `x,z ∈ (random-0.5)*50`, `y = 5 + random*10`. -/
def birdPositions (r : ℕ → ℚ) : List V3 :=
  (List.range 12).map fun i =>
    ((r (3 * i) - 1/2) * 50, 5 + r (3 * i + 1) * 10, (r (3 * i + 2) - 1/2) * 50)

/-- Orb placement: one entity per sample video id,
`x,z ∈ (random-0.5)*30`, `y = 1 + random*3`. -/
def orbPositions (r : ℕ → ℚ) : List V3 :=
  (List.range SAMPLE_VIDEO_IDS.length).map fun i =>
    ((r (3 * i) - 1/2) * 30, 1 + r (3 * i + 1) * 3, (r (3 * i + 2) - 1/2) * 30)

/-!
## Session state machine (`App`, `ARExperience`, `PortalPlacer`, `Portal`)

State flags of the source: `arSupported : null|bool` (`App`),
`portalPlaced`/`portalPosition` (`ARExperience`), `portalEntered` (`App`).
The events that can change them:
* resolution of the `isSessionSupported` query (`App` useEffect);
* the non-AR demo button (rendered only when `arSupported === false`),
  `onClick={() => setPortalEntered(true)}`;
* a tap on the placement reticle (`PortalPlacer`, rendered only while
  `!portalPlaced`), which sets `portalPlaced` and `portalPosition`;
* a rendered frame: `Portal` (rendered only while `portalPlaced` and
  `!portalEntered`) sets `portalEntered` when the camera is within distance 1
  of the portal position.
-/

/-- The UI flags of `App`/`ARExperience`. -/
structure AppState where
  arSupported : Option Bool
  portalPlaced : Bool
  portalEntered : Bool
  portalPosition : V3
  deriving DecidableEq, Repr

/-- The initial state: support unknown, portal neither placed nor entered,
default portal position `[0, 0, -5]`. -/
def initialAppState : AppState :=
  { arSupported := none, portalPlaced := false, portalEntered := false
    portalPosition := (0, 0, -5) }

/-- An event hitting the `App` state. -/
inductive AppEvent where
  | arCheck (supported : Bool)
  | demoEnterClick
  | placeClick (pos : V3)
  | frame (cam : V3)

/-- One transition of the session state.  Guards mirror the conditional
rendering of the source: the demo button exists only when
`arSupported === false`; the placement reticle only while `!portalPlaced`;
the portal's frame check only while `portalPlaced && !portalEntered`. -/
def appStep (s : AppState) : AppEvent → AppState
  | .arCheck b => { s with arSupported := some b }
  | .demoEnterClick =>
      if s.arSupported = some false then { s with portalEntered := true } else s
  | .placeClick p =>
      if s.portalPlaced then s
      else { s with portalPlaced := true, portalPosition := p }
  | .frame cam =>
      if s.portalPlaced ∧ ¬s.portalEntered ∧ distSq cam s.portalPosition < 1 ^ 2
      then { s with portalEntered := true } else s

/-- Running a sequence of events from a state. -/
def appRun (s : AppState) (evs : List AppEvent) : AppState :=
  evs.foldl appStep s

/-- The coarse session mode of the spec, as derived from the source flags. -/
inductive SessionMode where
  | portalUnplaced
  | portalPlaced
  | worldEntered
  deriving DecidableEq, Repr

/-- Mode derivation: `MemoryWorld` renders iff `portalEntered`; the placed
portal renders iff `portalPlaced && !portalEntered`. -/
def sessionMode (s : AppState) : SessionMode :=
  if s.portalEntered then .worldEntered
  else if s.portalPlaced then .portalPlaced
  else .portalUnplaced

/-!
## Per-frame oscillation (`MemoryOrb`, `Birds`)

The orb bob (App.jsx 422–429):
`orbRef.current.position.y = position[1] + Math.sin(time) * 0.2` with
`time = clock.getElapsedTime()` — the same argument for every orb.  The spin:
`orbRef.current.rotation.y += 0.01` — a constant per-frame increment; the
frame's `delta` is not read and no modulus is applied.

The bird flight (App.jsx 334–343):
`time = clock.getElapsedTime() * (0.2 + i * 0.01)`;
`x = base_x + Math.sin(time) * 3`; `z = base_z + Math.cos(time) * 3`;
`position.y` is never written.

`Math.sin` is an external collaborator; where a claim does not need real
trigonometric identities we pass an abstract `s : ℚ → ℚ` for it.
-/

/-- The orb's animated y-coordinate on a frame at elapsed time `t`:
`baseY + sin(t) * 0.2`, with `s` standing for `Math.sin`.  The expression does
not depend on which orb is being animated. -/
def orbFrameY (s : ℚ → ℚ) (baseY t : ℚ) : ℚ :=
  baseY + s t * (2/10)

/-- The argument passed to `Math.sin`/`Math.cos` for bird `i` at elapsed time
`t`: the shared elapsed time *scaled* by the per-bird factor `0.2 + 0.01*i`. -/
def birdTimeArg (i : ℕ) (t : ℚ) : ℚ :=
  t * (2/10 + (i : ℚ) * (1/100))

/-- One frame of the orb spin: `rotation.y += 0.01`.  The frame's `delta` is
accepted (the host loop provides it) but the source does not read it. -/
def orbRotStep (delta a : ℚ) : ℚ :=
  a + 1/100

/-- The spin angle after a sequence of frames with the given `delta`s. -/
def orbRotRun (a₀ : ℚ) (deltas : List ℚ) : ℚ :=
  deltas.foldl (fun a d => orbRotStep d a) a₀

/-!
## Tree and bush attributes (`Tree`, `Bush`)

`Tree` computes `const treeHeight = 2 + Math.random() * 3;` and `Bush`
computes `const bushSize = 0.5 + Math.random() * 0.5;` in the component body,
*outside* any `useMemo`: every re-render draws a fresh random value.  A render
of a tree/bush is therefore a function of the (memoised, stable) position and
of the fresh draw of that render.
-/

/-- The height drawn by one render of `Tree` from the fresh random draw `r`. -/
def treeHeight (r : ℚ) : ℚ :=
  2 + r * 3

/-- The size drawn by one render of `Bush` from the fresh random draw `r`. -/
def bushSize (r : ℚ) : ℚ :=
  1/2 + r * (1/2)

/-- One render of `Tree`: the stable position together with the height drawn
in this render. -/
def treeRender (pos : V3) (r : ℚ) : V3 × ℚ :=
  (pos, treeHeight r)

/-- One render of `Bush`: the stable position together with the size drawn in
this render. -/
def bushRender (pos : V3) (r : ℚ) : V3 × ℚ :=
  (pos, bushSize r)

/-!
## Motion-permission negotiation (`DeviceOrientationPermission`, part_000)

`requestPermission` runs in a `try`:
* if `DeviceOrientationEvent.requestPermission` exists, it is awaited; the
  string result `'granted'` sets state `granted` and invokes
  `onPermissionGranted()`, any other string sets state `denied`;
* if the API is absent, state is set to `granted` and `onPermissionGranted()`
  is invoked directly;
* a throw anywhere in the body is caught and sets state `error`.
The `error` UI offers a "Continue Anyway" button whose `onClick` is
`onPermissionGranted` itself.  The environment (API presence and outcome of
the awaited call) is a parameter of the embedding; `Except.error` models the
call throwing.
-/

/-- The `permissionState` values of `DeviceOrientationPermission`. -/
inductive PermState where
  | unknown
  | granted
  | denied
  | error
  deriving DecidableEq, Repr

/-- The platform environment seen by `requestPermission`: whether
`DeviceOrientationEvent.requestPermission` is a function, and, when it is,
the outcome of awaiting it (`Except.error ()` = the call throws). -/
structure PermEnv where
  hasAPI : Bool
  apiOutcome : Except Unit String
  deriving Repr

/-- The `try` body of `requestPermission`: the new `permissionState` and
whether `onPermissionGranted` was invoked, or the uncaught exception. -/
def requestPermissionBody (env : PermEnv) : Except Unit (PermState × Bool) :=
  if env.hasAPI then
    match env.apiOutcome with
    | .ok st => if st = "granted" then .ok (.granted, true) else .ok (.denied, false)
    | .error e => .error e
  else
    .ok (.granted, true)

/-- `requestPermission` with its `catch`: a throw is consumed locally and
becomes state `error`, with the granted callback not invoked. -/
def requestPermission (env : PermEnv) : PermState × Bool :=
  match requestPermissionBody env with
  | .ok res => res
  | .error _ => (.error, false)

/-- The observable component state: the current `permissionState` and whether
`onPermissionGranted` has ever been invoked (i.e. whether `Root` has moved on
to mounting `App`, the session's `portal-unplaced` entry point). -/
structure PermComp where
  state : PermState
  grantedCb : Bool
  deriving DecidableEq, Repr

/-- The component's initial state. -/
def initialPermComp : PermComp :=
  { state := .unknown, grantedCb := false }

/-- An event on the permission overlay: a run of `requestPermission` in a
given environment, or a click of the "Continue Anyway" button. -/
inductive PermEvent where
  | request (env : PermEnv)
  | continueClick

/-- One transition of the permission overlay.  "Continue Anyway" is rendered
only while `permissionState === 'error'`, and its handler is
`onPermissionGranted`. -/
def permStep (c : PermComp) : PermEvent → PermComp
  | .request env =>
      let res := requestPermission env
      { state := res.1, grantedCb := c.grantedCb || res.2 }
  | .continueClick =>
      if c.state = .error then { c with grantedCb := true } else c

/-!
## Bird flight geometry over ℝ (`Birds`, App.jsx 334–343)

For the claim about the flight circle the trigonometry is real:
`Real.sin`/`Real.cos` embed `Math.sin`/`Math.cos`.
-/

/-- Bird `i`'s animated position at elapsed time `t` from base position
`base`: `x = base_x + sin(t*(0.2+0.01*i))*3`, `y` untouched,
`z = base_z + cos(t*(0.2+0.01*i))*3`. -/
noncomputable def birdAnimPos (i : ℕ) (t : ℝ) (base : ℝ × ℝ × ℝ) : ℝ × ℝ × ℝ :=
  (base.1 + Real.sin (t * (2/10 + (i : ℝ) * (1/100))) * 3,
   base.2.1,
   base.2.2 + Real.cos (t * (2/10 + (i : ℝ) * (1/100))) * 3)

/-- The placement contract for all four entity kinds: exact counts
(trees 20, bushes 30, birds 12, orbs 7 = one per sample video id) with
`|x| ≤ E/2`, `|z| ≤ E/2` for the kind's extent `E` (40, 30, 50, 30) and `y`
per the kind's vertical rule (0; −0.5; `5 + random*10`; `1 + random*3`). -/
def placementSpec (r : ℕ → ℚ) : Prop :=
  ((treePositions r).length = 20 ∧ ∀ p ∈ treePositions r,
      |p.1| ≤ 40 / 2 ∧ |p.2.2| ≤ 40 / 2 ∧ p.2.1 = 0) ∧
  ((bushPositions r).length = 30 ∧ ∀ p ∈ bushPositions r,
      |p.1| ≤ 30 / 2 ∧ |p.2.2| ≤ 30 / 2 ∧ p.2.1 = -(1/2)) ∧
  ((birdPositions r).length = 12 ∧ ∀ p ∈ birdPositions r,
      |p.1| ≤ 50 / 2 ∧ |p.2.2| ≤ 50 / 2 ∧ 5 ≤ p.2.1 ∧ p.2.1 < 15) ∧
  ((orbPositions r).length = SAMPLE_VIDEO_IDS.length ∧
    SAMPLE_VIDEO_IDS.length = 7 ∧ ∀ p ∈ orbPositions r,
      |p.1| ≤ 30 / 2 ∧ |p.2.2| ≤ 30 / 2 ∧ 1 ≤ p.2.1 ∧ p.2.1 < 4)

/-!
# Theorems

## C1 — proximity activation policy
-/

/-- The queued-write fold from an inactive previous state reduces to the
last-qualifying-index scan. -/
theorem orbWrites_none_eq (cam : V3) (l : List V3) :
    ∀ (k : ℕ) (acc : Option (Option ℕ)),
      orbWrites cam none l k acc =
        match lastIdxWithin cam l k with
        | some j => some (some j)
        | none => acc := by
  induction l with
  | nil => intro k acc; rfl
  | cons p rest ih =>
      intro k acc
      have hne : (none : Option ℕ) ≠ some k := by simp
      simp only [orbWrites, if_neg hne]
      rw [ih]
      simp only [lastIdxWithin]
      cases hrec : lastIdxWithin cam rest (k + 1) with
      | some j => rfl
      | none => by_cases hd : distSq cam p < 3 ^ 2 <;> simp [hd]

/-- From an inactive previous state, the frame evaluation is exactly the
last-qualifying-index scan. -/
theorem orbFrameEval_none_eq (cam : V3) (orbs : List V3) :
    orbFrameEval cam orbs none = lastIdxWithin cam orbs 0 := by
  unfold orbFrameEval
  rw [orbWrites_none_eq]
  cases lastIdxWithin cam orbs 0 <;> rfl

/-- The scan returns `none` exactly when no candidate is within the radius. -/
theorem lastIdxWithin_eq_none (cam : V3) :
    ∀ (l : List V3) (k : ℕ),
      lastIdxWithin cam l k = none ↔ ∀ p ∈ l, ¬(distSq cam p < 3 ^ 2) := by
  intro l
  induction l with
  | nil => intro k; simp [lastIdxWithin]
  | cons p rest ih =>
      intro k
      have hrest := ih (k + 1)
      simp only [lastIdxWithin]
      cases hrec : lastIdxWithin cam rest (k + 1) with
      | none =>
          have hall : ∀ q ∈ rest, ¬(distSq cam q < 3 ^ 2) := (hrest).mp hrec
          by_cases hd : distSq cam p < 3 ^ 2
          · simp only [if_pos hd]
            constructor
            · intro h; exact Option.noConfusion h
            · intro h; exact absurd hd (h p (List.mem_cons_self _ _))
          · simp only [if_neg hd]
            constructor
            · intro _ q hq
              rcases List.mem_cons.mp hq with rfl | hq'
              · exact hd
              · exact hall q hq'
            · intro _; trivial
      | some j =>
          have hnall : ¬ ∀ q ∈ rest, ¬(distSq cam q < 3 ^ 2) := by
            intro hq
            rw [hrest.mpr hq] at hrec
            exact Option.noConfusion hrec
          refine ⟨fun h => Option.noConfusion h, fun h => ?_⟩
          exact absurd (fun q hq => h q (List.mem_cons_of_mem _ hq)) hnall

/-- The scan returns `some i` only for the last index within the radius:
`i` counts from offset `k`, its candidate is within the radius, and every
later candidate is not. -/
theorem lastIdxWithin_eq_some (cam : V3) :
    ∀ (l : List V3) (k i : ℕ),
      lastIdxWithin cam l k = some i →
        ∃ j, ∃ hj : j < l.length, i = k + j ∧
          distSq cam (l.get ⟨j, hj⟩) < 3 ^ 2 ∧
          ∀ j', ∀ hj' : j' < l.length, j < j' →
            ¬(distSq cam (l.get ⟨j', hj'⟩) < 3 ^ 2) := by
  intro l
  induction l with
  | nil => intro k i h; exact Option.noConfusion h
  | cons p rest ih =>
      intro k i h
      simp only [lastIdxWithin] at h
      cases hrec : lastIdxWithin cam rest (k + 1) with
      | some j0 =>
          rw [hrec] at h
          have hi : i = j0 := (Option.some_inj.mp h).symm
          obtain ⟨j, hj, hij, hdist, hmax⟩ := ih (k + 1) j0 hrec
          refine ⟨j + 1, by simpa using Nat.succ_lt_succ hj, ?_, ?_, ?_⟩
          · omega
          · simpa using hdist
          · intro j' hj' hlt
            cases j' with
            | zero => omega
            | succ j'' =>
                have hj'' : j'' < rest.length := by simpa using hj'
                have : j < j'' := by omega
                simpa using hmax j'' hj'' this
      | none =>
          rw [hrec] at h
          by_cases hd : distSq cam p < 3 ^ 2
          · rw [if_pos hd] at h
            have hi : i = k := (Option.some_inj.mp h).symm
            refine ⟨0, by simp, by omega, by simpa using hd, ?_⟩
            intro j' hj' hlt
            cases j' with
            | zero => omega
            | succ j'' =>
                have hj'' : j'' < rest.length := by simpa using hj'
                have hall := (lastIdxWithin_eq_none cam rest (k + 1)).mp hrec
                simpa using hall (rest.get ⟨j'', hj''⟩) (rest.get_mem _ _)
          · rw [if_neg hd] at h
            exact Option.noConfusion h

/-- C1: the claim as stated is false on the code.  With the viewer at the
origin and candidates at distances 1 and 2 — both within the activation
radius 3 — the per-frame evaluation from an inactive state activates index 1
(distance 2), not the nearest candidate, index 0 (distance 1): the loop's
last queued state write wins. -/
theorem C1_counterexample :
    orbFrameEval (0, 0, 0) [(1, 0, 0), (2, 0, 0)] none = some 1 ∧
    distSq (0, 0, 0) (1, 0, 0) < 3 ^ 2 ∧
    distSq (0, 0, 0) (2, 0, 0) < 3 ^ 2 ∧
    distSq (0, 0, 0) (1, 0, 0) < distSq (0, 0, 0) (2, 0, 0) ∧
    (some 1 : Option ℕ) ≠ some 0 := by
  refine ⟨by norm_num [orbFrameEval, orbWrites, distSq]; simp, ?_, ?_, ?_, by simp⟩ <;>
    norm_num [distSq]

/-- C1 (amended): from an inactive previous state, the per-frame activation
evaluation yields at most one active index (it returns an `Option`); the
result is `none` exactly when no candidate is within the activation radius 3;
and the result is `some i` exactly when candidate `i` is within the radius
and every *later* candidate is not — i.e. when several candidates are within
the radius the highest-indexed one is selected (last state write wins), not
the nearest.  On the spec's example distances {5, 0.5, 10} the unique
qualifying candidate, at distance 0.5, is selected. -/
theorem C1_activation_characterisation (cam : V3) (orbs : List V3) (i : ℕ) :
    (orbFrameEval cam orbs none = none ↔
      ∀ p ∈ orbs, ¬(distSq cam p < 3 ^ 2)) ∧
    (orbFrameEval cam orbs none = some i ↔
      ∃ hi : i < orbs.length, distSq cam (orbs.get ⟨i, hi⟩) < 3 ^ 2 ∧
        ∀ j, ∀ hj : j < orbs.length, i < j →
          ¬(distSq cam (orbs.get ⟨j, hj⟩) < 3 ^ 2)) ∧
    orbFrameEval (0, 0, 0) [(5, 0, 0), (1/2, 0, 0), (10, 0, 0)] none = some 1 := by
  refine ⟨?_, ?_, by norm_num [orbFrameEval, orbWrites, distSq]; simp⟩
  · rw [orbFrameEval_none_eq]
    exact lastIdxWithin_eq_none cam orbs 0
  · rw [orbFrameEval_none_eq]
    constructor
    · intro h
      obtain ⟨j, hj, hij, hdist, hmax⟩ := lastIdxWithin_eq_some cam orbs 0 i h
      have : i = j := by omega
      subst this
      exact ⟨hj, hdist, hmax⟩
    · rintro ⟨hi, hdist, hmax⟩
      cases hres : lastIdxWithin cam orbs 0 with
      | none =>
          exact absurd hdist
            (((lastIdxWithin_eq_none cam orbs 0).mp hres) _ (orbs.get_mem _ _))
      | some i' =>
          obtain ⟨j, hj, hij, hdist', hmax'⟩ := lastIdxWithin_eq_some cam orbs 0 i' hres
          have hji : i' = j := by omega
          subst hji
          rcases Nat.lt_trichotomy i i' with hlt | heq | hgt
          · exact absurd hdist' (hmax i' hj hlt)
          · rw [heq]
          · exact absurd hdist (hmax' i hi hgt)

/-!
## C2 — no toggle policy exists in non-AR/demo mode
-/

/-- C2: the claim as stated is false on the code.  The source attaches no
selection handler to any orb, so explicit selection never changes activation:
selecting the already-active index 2 leaves it active (the spec's toggle
policy demands `null`), and from an inactive state selecting index 2 and then
index 3 leaves activation `null` (the toggle policy demands 3). -/
theorem C2_counterexample :
    orbStep [(100, 0, 0), (101, 0, 0), (102, 0, 0), (103, 0, 0)] (some 2)
        (.select 2) = some 2 ∧
    (some 2 : Option ℕ) ≠ none ∧
    orbStep [(100, 0, 0), (101, 0, 0), (102, 0, 0), (103, 0, 0)]
      (orbStep [(100, 0, 0), (101, 0, 0), (102, 0, 0), (103, 0, 0)] none
        (.select 2)) (.select 3) = none ∧
    (none : Option ℕ) ≠ some 3 := by
  refine ⟨rfl, by simp, rfl, by simp⟩

/-- C2 (amended): in non-AR/demo mode there is no toggle policy — the source
attaches no click handler to orbs, so any sequence consisting only of
explicit selection events leaves the activation state unchanged, and a frame
event applies the same proximity evaluation as AR mode. -/
theorem C2_selection_has_no_effect (orbs : List V3) (st : Option ℕ)
    (cam : V3) (evs : List OrbEvent)
    (h : ∀ e ∈ evs, ∃ i, e = OrbEvent.select i) :
    evs.foldl (orbStep orbs) st = st ∧
    orbStep orbs st (.frame cam) = orbFrameEval cam orbs st := by
  refine ⟨?_, rfl⟩
  induction evs generalizing st with
  | nil => rfl
  | cons e rest ih =>
      obtain ⟨i, rfl⟩ := h e (List.mem_cons_self _ _)
      exact ih st fun e' he' => h e' (List.mem_cons_of_mem _ he')

/-- Witness for C2: the hypothesis and conclusion at the concrete event
sequence [select 2, select 3] from the active state `some 2`. -/
theorem C2_witness :
    (∀ e ∈ [OrbEvent.select 2, OrbEvent.select 3], ∃ i, e = OrbEvent.select i) ∧
    ([OrbEvent.select 2, OrbEvent.select 3].foldl
        (orbStep [(100, 0, 0), (101, 0, 0)]) (some 2) = some 2 ∧
      orbStep [(100, 0, 0), (101, 0, 0)] (some 2) (.frame (0, 0, 0)) =
        orbFrameEval (0, 0, 0) [(100, 0, 0), (101, 0, 0)] (some 2)) := by
  have h : ∀ e ∈ [OrbEvent.select 2, OrbEvent.select 3],
      ∃ i, e = OrbEvent.select i := by
    intro e he
    rcases List.mem_cons.mp he with rfl | he'
    · exact ⟨2, rfl⟩
    · rcases List.mem_cons.mp he' with rfl | he''
      · exact ⟨3, rfl⟩
      · exact absurd he'' (List.not_mem_nil e)
  exact ⟨h, C2_selection_has_no_effect _ _ _ _ h⟩

/-!
## C3 — placement counts and bounds
-/

/-- A draw in `[0,1)` scaled and centred stays within half the extent. -/
theorem centred_scaled_abs_le (x c : ℚ) (h0 : 0 ≤ x) (h1 : x < 1)
    (hc : 0 ≤ c) : |(x - 1/2) * c| ≤ c / 2 := by
  rw [abs_le]
  constructor <;> nlinarith

/-- C3: for every entity kind the placement generator returns exactly the
advertised count, each position within half the kind's horizontal extent on
x and z, with y per the kind's vertical rule (trees 20/40, bushes 30/30,
birds 12/50, orbs 7/30). -/
theorem C3_placement_bounds (r : ℕ → ℚ) (hr : ∀ i, 0 ≤ r i ∧ r i < 1) :
    placementSpec r := by
  refine ⟨⟨by simp [treePositions], ?_⟩, ⟨by simp [bushPositions], ?_⟩,
    ⟨by simp [birdPositions], ?_⟩, by simp [orbPositions, SAMPLE_VIDEO_IDS], rfl, ?_⟩ <;>
    intro p hp
  · simp only [treePositions, List.mem_map, List.mem_range] at hp
    obtain ⟨i, -, rfl⟩ := hp
    obtain ⟨h0, h1⟩ := hr (2 * i)
    obtain ⟨h0', h1'⟩ := hr (2 * i + 1)
    exact ⟨centred_scaled_abs_le _ 40 h0 h1 (by norm_num),
      centred_scaled_abs_le _ 40 h0' h1' (by norm_num), rfl⟩
  · simp only [bushPositions, List.mem_map, List.mem_range] at hp
    obtain ⟨i, -, rfl⟩ := hp
    obtain ⟨h0, h1⟩ := hr (2 * i)
    obtain ⟨h0', h1'⟩ := hr (2 * i + 1)
    exact ⟨centred_scaled_abs_le _ 30 h0 h1 (by norm_num),
      centred_scaled_abs_le _ 30 h0' h1' (by norm_num), rfl⟩
  · simp only [birdPositions, List.mem_map, List.mem_range] at hp
    obtain ⟨i, -, rfl⟩ := hp
    obtain ⟨h0, h1⟩ := hr (3 * i)
    obtain ⟨hy0, hy1⟩ := hr (3 * i + 1)
    obtain ⟨h0', h1'⟩ := hr (3 * i + 2)
    refine ⟨centred_scaled_abs_le _ 50 h0 h1 (by norm_num),
      centred_scaled_abs_le _ 50 h0' h1' (by norm_num), by nlinarith, by nlinarith⟩
  · simp only [orbPositions, List.mem_map, List.mem_range] at hp
    obtain ⟨i, -, rfl⟩ := hp
    obtain ⟨h0, h1⟩ := hr (3 * i)
    obtain ⟨hy0, hy1⟩ := hr (3 * i + 1)
    obtain ⟨h0', h1'⟩ := hr (3 * i + 2)
    refine ⟨centred_scaled_abs_le _ 30 h0 h1 (by norm_num),
      centred_scaled_abs_le _ 30 h0' h1' (by norm_num), by nlinarith, by nlinarith⟩

/-- Witness for C3: the bounds hold at the constant draw stream 1/2. -/
theorem C3_witness :
    (∀ i : ℕ, 0 ≤ (fun _ : ℕ => (1 : ℚ)/2) i ∧ (fun _ : ℕ => (1 : ℚ)/2) i < 1) ∧
    placementSpec (fun _ : ℕ => (1 : ℚ)/2) := by
  have h : ∀ i : ℕ, 0 ≤ (fun _ : ℕ => (1 : ℚ)/2) i ∧
      (fun _ : ℕ => (1 : ℚ)/2) i < 1 := fun i => by norm_num
  exact ⟨h, C3_placement_bounds _ h⟩

/-!
## C4 — world-entered is terminal
-/

/-- Every single transition preserves `portalEntered = true`. -/
theorem appStep_preserves_entered (s : AppState) (e : AppEvent)
    (h : s.portalEntered = true) : (appStep s e).portalEntered = true := by
  cases e with
  | arCheck b => exact h
  | demoEnterClick =>
      simp only [appStep]
      split <;> first | rfl | exact h
  | placeClick p =>
      simp only [appStep]
      split <;> first | rfl | exact h
  | frame cam =>
      simp only [appStep]
      split <;> first | rfl | exact h

/-- C4: once the portal-entered flag is true, no sequence of subsequent
events (AR-support resolutions, clicks, hit-test placements, frames) ever
clears it, and the derived session mode stays `world-entered` — in
particular it never returns to `portal-placed` or any earlier mode. -/
theorem C4_world_entered_terminal (s : AppState) (evs : List AppEvent)
    (h : s.portalEntered = true) :
    (appRun s evs).portalEntered = true ∧
    sessionMode (appRun s evs) = .worldEntered := by
  have hent : (appRun s evs).portalEntered = true := by
    induction evs generalizing s with
    | nil => exact h
    | cons e rest ih => exact ih (appStep s e) (appStep_preserves_entered s e h)
  exact ⟨hent, by simp [sessionMode, hent]⟩

/-- Witness for C4: from a concrete entered state, a frame near the portal,
a placement tap and a demo click leave the session in `world-entered`. -/
theorem C4_witness :
    ({ arSupported := some false, portalPlaced := true, portalEntered := true,
        portalPosition := (0, 0, -5) } : AppState).portalEntered = true ∧
    ((appRun ({ arSupported := some false, portalPlaced := true,
                portalEntered := true, portalPosition := (0, 0, -5) } : AppState)
      [.frame (0, 0, -5), .placeClick (1, 1, 1), .demoEnterClick]).portalEntered = true ∧
      sessionMode (appRun ({ arSupported := some false, portalPlaced := true,
                             portalEntered := true, portalPosition := (0, 0, -5) } : AppState)
        [.frame (0, 0, -5), .placeClick (1, 1, 1), .demoEnterClick]) = .worldEntered) :=
  ⟨rfl, C4_world_entered_terminal _ _ rfl⟩

/-!
## C5 — oscillation: phase vs frequency
-/

/-- C5: the claim as stated is false on the code.  The time arguments of bird
1 and bird 2 (`t*0.21` and `t*0.22`) cannot both be written as a shared
frequency times the elapsed time plus a per-bird phase offset,
`f * (t + φᵢ)`: the birds differ in *frequency*, not in an additive phase. -/
theorem C5_counterexample :
    ¬ ∃ (f p₁ p₂ : ℚ), ∀ t : ℚ,
        birdTimeArg 1 t = f * (t + p₁) ∧ birdTimeArg 2 t = f * (t + p₂) := by
  rintro ⟨f, p₁, p₂, h⟩
  have h10 := (h 0).1
  have h20 := (h 0).2
  have h11 := (h 1).1
  have h21 := (h 1).2
  unfold birdTimeArg at h10 h20 h11 h21
  push_cast at h10 h20 h11 h21
  nlinarith [h10, h20, h11, h21]

/-- C5 (amended): the per-frame oscillation is a pure function of the shared
elapsed time and per-entity constants, but with no per-entity phase: every
orb's vertical bob is `sin(t) * 0.2` — amplitude 0.2, frequency 1, phase 0,
identical for all orbs, so all orbs bob in sync — and bird `i` scales the
shared elapsed time by the per-bird frequency factor `0.2 + 0.01*i`, with no
additive phase offset. -/
theorem C5_oscillation_form (s : ℚ → ℚ) (t b₁ b₂ : ℚ) (i : ℕ) :
    orbFrameY s b₁ t - b₁ = s t * (2/10) ∧
    orbFrameY s b₁ t - b₁ = orbFrameY s b₂ t - b₂ ∧
    birdTimeArg i t = (2/10 + (i : ℚ) * (1/100)) * t := by
  unfold orbFrameY birdTimeArg
  refine ⟨by ring, by ring, by ring⟩

/-!
## C6 — orb spin: per-frame constant, unbounded, never wrapped
-/

/-- The spin angle after a frame sequence depends only on the frame count:
each frame adds exactly 1/100, whatever its `delta`. -/
theorem orbRotRun_closed (a₀ : ℚ) (deltas : List ℚ) :
    orbRotRun a₀ deltas = a₀ + deltas.length * (1/100) := by
  induction deltas generalizing a₀ with
  | nil => simp [orbRotRun]
  | cons d rest ih =>
      have : orbRotRun a₀ (d :: rest) = orbRotRun (a₀ + 1/100) rest := rfl
      rw [this, ih]
      simp only [List.length_cons]
      push_cast
      ring

/-- C6: the claim as stated is false on the code.  The spin increment ignores
the frame's `deltaTime` (frames with deltas 5 and 1/100 advance the angle
identically), and no modulo-2π wrap is applied: after 629 frames from angle 0
the stored angle is 6.29, which exceeds 2π, so the angle does not remain in
[0, 2π). -/
theorem C6_counterexample :
    orbRotStep 5 0 = orbRotStep (1/100) 0 ∧
    orbRotRun 0 (List.replicate 629 (1/60)) = 629/100 ∧
    ¬ (((orbRotRun 0 (List.replicate 629 (1/60)) : ℚ) : ℝ) < 2 * Real.pi) := by
  have hrun : orbRotRun 0 (List.replicate 629 (1/60)) = 629/100 := by
    rw [orbRotRun_closed]
    norm_num
  refine ⟨rfl, hrun, ?_⟩
  rw [hrun]
  push_cast
  have hpi := Real.pi_lt_d6
  intro hcontra
  nlinarith [hpi, hcontra]

/-- C6 (amended): the spin advances by the constant 0.01 per rendered frame —
not by a constant times the frame's `deltaTime` — and is never wrapped: after
any frame sequence the stored angle is exactly the start angle plus
`0.01 * (number of frames)`, growing without bound instead of staying in
[0, 2π). -/
theorem C6_spin_unbounded (a₀ : ℚ) (deltas : List ℚ) (bound : ℚ) :
    orbRotRun a₀ deltas = a₀ + deltas.length * (1/100) ∧
    ∃ n : ℕ, a₀ + (List.replicate n (1:ℚ)).length * (1/100) > bound := by
  refine ⟨orbRotRun_closed a₀ deltas, ?_⟩
  obtain ⟨n, hn⟩ := exists_nat_gt ((bound - a₀) * 100)
  refine ⟨n, ?_⟩
  simp only [List.length_replicate]
  nlinarith [hn]

/-!
## C7 — tree height / bush size are re-drawn on every render
-/

/-- C7: the code contradicts the stated (and spec-stated) immutability
intent.  `Tree` computes `treeHeight = 2 + Math.random()*3` and `Bush`
computes `bushSize = 0.5 + Math.random()*0.5` in the component body, not
inside the memoised layout: two renders of the same tree at the same
(memoised, stable) position with draws 0 and 1/2 yield heights 2 and 3.5 —
the height and size are not constant for the session lifetime. -/
theorem C7_attributes_redrawn_each_render :
    treeRender (1, 0, 2) 0 = ((1, 0, 2), 2) ∧
    treeRender (1, 0, 2) (1/2) = ((1, 0, 2), 7/2) ∧
    (treeRender (1, 0, 2) 0).1 = (treeRender (1, 0, 2) (1/2)).1 ∧
    (treeRender (1, 0, 2) 0).2 ≠ (treeRender (1, 0, 2) (1/2)).2 ∧
    (bushRender (1, 0, 2) 0).2 ≠ (bushRender (1, 0, 2) (1/2)).2 := by
  refine ⟨?_, ?_, rfl, ?_, ?_⟩ <;>
    norm_num [treeRender, bushRender, treeHeight, bushSize]

/-!
## C8 — permission error: caught, but the transition is user-initiated
-/

/-- C8: the claim as stated is false on the code.  When the permission API
throws, the error is caught (state becomes `error`, no fault escapes), but
the session does *not* transition to portal-unplaced: the granted callback —
the only way `Root` mounts `App` and reaches `portal-unplaced` — has not been
invoked after the failed request. -/
theorem C8_counterexample :
    requestPermission ⟨true, .error ()⟩ = (.error, false) ∧
    (permStep initialPermComp (.request ⟨true, .error ()⟩)).state = .error ∧
    (permStep initialPermComp (.request ⟨true, .error ()⟩)).grantedCb = false ∧
    (permStep initialPermComp (.request ⟨true, .error ()⟩)).grantedCb ≠ true := by
  refine ⟨rfl, rfl, rfl, by simp [permStep, requestPermission, requestPermissionBody, initialPermComp]⟩

/-- C8 (amended): when the permission API throws, the error is caught locally
and never propagated (the request body's exception is consumed and the
request returns normally with state `error`); the granted callback is not
invoked by the error itself, so the session stays on the permission overlay;
the overlay then offers a continue-anyway affordance whose activation invokes
the granted callback — reaching portal-unplaced by explicit user action
rather than automatically. -/
theorem C8_error_caught_continue_anyway (env : PermEnv) (c : PermComp)
    (hA : env.hasAPI = true) (hE : env.apiOutcome = .error ()) :
    requestPermissionBody env = .error () ∧
    requestPermission env = (.error, false) ∧
    (permStep c (.request env)).state = .error ∧
    (permStep c (.request env)).grantedCb = c.grantedCb ∧
    (permStep (permStep { c with grantedCb := false } (.request env))
        .continueClick).grantedCb = true := by
  have hbody : requestPermissionBody env = .error () := by
    simp [requestPermissionBody, hA, hE]
  have hreq : requestPermission env = (.error, false) := by
    simp [requestPermission, hbody]
  refine ⟨hbody, hreq, by simp [permStep, hreq], by simp [permStep, hreq],
    by simp [permStep, hreq]⟩

/-- Witness for C8: the throwing environment, starting from the initial
overlay state. -/
theorem C8_witness :
    ((⟨true, .error ()⟩ : PermEnv).hasAPI = true ∧
      (⟨true, .error ()⟩ : PermEnv).apiOutcome = .error ()) ∧
    (requestPermissionBody ⟨true, .error ()⟩ = .error () ∧
      requestPermission ⟨true, .error ()⟩ = (.error, false) ∧
      (permStep initialPermComp (.request ⟨true, .error ()⟩)).state = .error ∧
      (permStep initialPermComp (.request ⟨true, .error ()⟩)).grantedCb =
        initialPermComp.grantedCb ∧
      (permStep (permStep { initialPermComp with grantedCb := false }
          (.request ⟨true, .error ()⟩)) .continueClick).grantedCb = true) :=
  ⟨⟨rfl, rfl⟩, C8_error_caught_continue_anyway ⟨true, .error ()⟩ initialPermComp rfl rfl⟩

/-!
## C9 — absent permission API is treated as granted
-/

/-- C9: when `DeviceOrientationEvent.requestPermission` is not a function,
the request resolves to `granted` and the granted callback is invoked — an
outcome indistinguishable from an environment whose API actually resolves
`'granted'`. -/
theorem C9_absent_api_grants (env : PermEnv) (h : env.hasAPI = false) :
    requestPermission env = (.granted, true) ∧
    requestPermission env = requestPermission ⟨true, .ok "granted"⟩ := by
  have h1 : requestPermission env = (.granted, true) := by
    simp [requestPermission, requestPermissionBody, h]
  exact ⟨h1, by rw [h1]; rfl⟩

/-- Witness for C9: a platform without the API (whatever the unused API
outcome field holds). -/
theorem C9_witness :
    ((⟨false, .ok "denied"⟩ : PermEnv).hasAPI = false) ∧
    (requestPermission ⟨false, .ok "denied"⟩ = (.granted, true) ∧
      requestPermission ⟨false, .ok "denied"⟩ =
        requestPermission ⟨true, .ok "granted"⟩) :=
  ⟨rfl, C9_absent_api_grants ⟨false, .ok "denied"⟩ rfl⟩

/-!
## C10 — bird flight circle
-/

/-- C10: at every elapsed time, bird `i`'s animated position is exactly
`(base_x + 3*sin(t*(0.2+0.01*i)), base_y, base_z + 3*cos(t*(0.2+0.01*i)))`:
the squared horizontal offset from the base point is exactly 3², its altitude
is its fixed base altitude, and the horizontal distance from the base point
never exceeds 3. -/
theorem C10_bird_flight_circle (i : ℕ) (t : ℝ) (base : ℝ × ℝ × ℝ) :
    (birdAnimPos i t base).1 =
      base.1 + 3 * Real.sin (t * (2/10 + (i : ℝ) * (1/100))) ∧
    (birdAnimPos i t base).2.1 = base.2.1 ∧
    (birdAnimPos i t base).2.2 =
      base.2.2 + 3 * Real.cos (t * (2/10 + (i : ℝ) * (1/100))) ∧
    ((birdAnimPos i t base).1 - base.1) ^ 2 +
      ((birdAnimPos i t base).2.2 - base.2.2) ^ 2 = 3 ^ 2 ∧
    Real.sqrt (((birdAnimPos i t base).1 - base.1) ^ 2 +
      ((birdAnimPos i t base).2.2 - base.2.2) ^ 2) ≤ 3 := by
  have hsq : ((birdAnimPos i t base).1 - base.1) ^ 2 +
      ((birdAnimPos i t base).2.2 - base.2.2) ^ 2 = 3 ^ 2 := by
    unfold birdAnimPos
    have hpyth := Real.sin_sq_add_cos_sq (t * (2/10 + (i : ℝ) * (1/100)))
    nlinarith [hpyth]
  refine ⟨by unfold birdAnimPos; ring, rfl, by unfold birdAnimPos; ring, hsq, ?_⟩
  rw [hsq]
  rw [show ((3 : ℝ) ^ 2) = 3 * 3 by ring, Real.sqrt_mul_self (by norm_num)]

end MemoraVerse
